import Mathlib

/-!
Shallow embedding of the workflow execution engine of `src/main.go`
(Go package `main` of the openautomation repository).

Modelling conventions:
* Go `time.Time` values are modelled as `Nat` clock readings; the two
  `time.Now()` calls inside `WorkflowExecutor.Execute` are passed in as the
  explicit parameters `startTime` and `endTime`.
* Go maps with string keys are modelled as association lists together with
  `assocLookup` (first match) and `assocSet` (update the first entry with the
  key, otherwise append) — the observable semantics of a Go map.
* Go `interface{}` values are modelled by `GoValue`, covering exactly the
  shapes this engine constructs and inspects: `nil`, a primitive (string,
  number, boolean), or a flat `map[string]interface{}` of primitives (the
  shape every registered node executor returns).  Go `float64` numbers are
  modelled as `Int`; the engine performs no arithmetic on them, it only
  passes them through.
* A Go pair `(*T, error)` is modelled as `Option T × Option String`
  (`nil` pointer ↦ `none`, `nil` error ↦ `none`).
* Potential mutation through a pointer receiver/argument is made explicit:
  `WorkflowExecutor.Execute` also returns the post-state of the `*Workflow`
  it received, and `WorkflowEngine.ExecuteWorkflow` returns the post-state
  of the engine's workflow store.  The Go bodies contain no assignment to
  those objects, which the embedding reflects statement by statement.
* `time.Sleep` inside `TimerExecutor.Execute` only delays; it has no effect
  on any value and is not modelled.
-/

/-- Go primitive `interface{}` payloads used by the engine. -/
inductive GoPrim where
  | pStr (s : String)
  | pNum (n : Int)
  | pBool (b : Bool)
  deriving DecidableEq, Repr

/-- The Go `interface{}` values the engine constructs and inspects:
`nil`, a primitive, or a flat string-keyed map of primitives. -/
inductive GoValue where
  | gNull
  | gPrim (p : GoPrim)
  | gMap (m : List (String × GoPrim))
  deriving DecidableEq, Repr

/-- First-match lookup in a string-keyed association list (Go map read). -/
def assocLookup {α : Type} : List (String × α) → String → Option α
  | [], _ => none
  | (k', v) :: rest, k => if k' = k then some v else assocLookup rest k

/-- Go map write: replace the first entry with the key, else append. -/
def assocSet {α : Type} : List (String × α) → String → α → List (String × α)
  | [], k, v => [(k, v)]
  | (k', v') :: rest, k, v =>
    if k' = k then (k, v) :: rest else (k', v') :: assocSet rest k v

/-- Go `type NodeType string`. -/
abbrev NodeType := String

def NodeWebhook : NodeType := "webhook"

def NodeTimer : NodeType := "timer"

def NodeHTTP : NodeType := "http"

def NodeEmail : NodeType := "email"

def NodeDatabase : NodeType := "database"

def NodeCondition : NodeType := "condition"

def NodeLoop : NodeType := "loop"

def NodeTransform : NodeType := "transform"

def NodeSlack : NodeType := "slack"

def NodeSheets : NodeType := "sheets"

def NodeOpenAI : NodeType := "openai"

/-- Go struct `Node`.  `Type` is a Lean keyword, so the field is named
`nodeType`; the layout coordinates (Go `float64`, presentation-only) are
modelled as `Int`. -/
structure Node where
  id : String
  nodeType : NodeType
  name : String
  x : Int
  y : Int
  properties : List (String × GoValue)
  deriving DecidableEq, Repr

/-- Go struct `Connection`. -/
structure Connection where
  id : String
  fromID : String
  toID : String
  deriving DecidableEq, Repr

/-- Go struct `Workflow` (timestamps as `Nat` clock readings). -/
structure Workflow where
  id : String
  name : String
  description : String
  nodes : List Node
  connections : List Connection
  createdAt : Nat
  updatedAt : Nat
  status : String
  deriving DecidableEq, Repr

/-- Go struct `ExecutionResult`. -/
structure ExecutionResult where
  workflowID : String
  status : String
  startTime : Nat
  endTime : Nat
  results : List (String × GoValue)
  errors : List String
  deriving DecidableEq, Repr

/-- The Go `NodeExecutor` interface: `Execute(node *Node, input interface{})
(interface{}, error)`, with the error case carried by `Except`. -/
def NodeExecutor := Node → GoValue → Except String GoValue

/-- Go struct `WorkflowExecutor`: the registry `map[NodeType]NodeExecutor`,
modelled as a total lookup function (absent key ↦ `none`). -/
structure WorkflowExecutor where
  nodeExecutors : NodeType → Option NodeExecutor

/-- Models Go `v, _ := props[k].(string)`: the comma-ok string type
assertion, yielding `""` when the key is absent or not a string. -/
def propString (props : List (String × GoValue)) (k : String) : String :=
  match assocLookup props k with
  | some (GoValue.gPrim (GoPrim.pStr s)) => s
  | _ => ""

/-- Models Go `v, _ := props[k].(float64)`, yielding `0` when the key is
absent or not a number. -/
def propNum (props : List (String × GoValue)) (k : String) : Int :=
  match assocLookup props k with
  | some (GoValue.gPrim (GoPrim.pNum n)) => n
  | _ => 0

/-- Go `WebhookExecutor.Execute`. -/
def WebhookExecutor.Execute : NodeExecutor := fun node _input =>
  Except.ok (GoValue.gMap
    [("status", GoPrim.pStr "webhook_executed"),
     ("url", GoPrim.pStr (propString node.properties "url")),
     ("method", GoPrim.pStr (propString node.properties "method"))])

/-- Go `TimerExecutor.Execute` (the `time.Sleep` only delays and is not
modelled; the returned value is unaffected by it). -/
def TimerExecutor.Execute : NodeExecutor := fun node _input =>
  Except.ok (GoValue.gMap
    [("status", GoPrim.pStr "timer_completed"),
     ("waited", GoPrim.pNum (propNum node.properties "interval"))])

/-- Go `HTTPExecutor.Execute` (the request is simulated in the source). -/
def HTTPExecutor.Execute : NodeExecutor := fun node _input =>
  Except.ok (GoValue.gMap
    [("status", GoPrim.pStr "http_request_sent"),
     ("url", GoPrim.pStr (propString node.properties "url")),
     ("method", GoPrim.pStr (propString node.properties "method"))])

/-- Go `EmailExecutor.Execute`. -/
def EmailExecutor.Execute : NodeExecutor := fun node _input =>
  Except.ok (GoValue.gMap
    [("status", GoPrim.pStr "email_sent"),
     ("to", GoPrim.pStr (propString node.properties "to")),
     ("subject", GoPrim.pStr (propString node.properties "subject"))])

/-- Go `ConditionExecutor.Execute` (`result := true` in the source). -/
def ConditionExecutor.Execute : NodeExecutor := fun node _input =>
  Except.ok (GoValue.gMap
    [("status", GoPrim.pStr "condition_evaluated"),
     ("condition", GoPrim.pStr (propString node.properties "condition")),
     ("result", GoPrim.pBool true)])

/-- Go `TransformExecutor.Execute`. -/
def TransformExecutor.Execute : NodeExecutor := fun node _input =>
  Except.ok (GoValue.gMap
    [("status", GoPrim.pStr "data_transformed"),
     ("script", GoPrim.pStr (propString node.properties "script"))])

/-- Go `NewWorkflowExecutor`: registers exactly the six executors. -/
def NewWorkflowExecutor : WorkflowExecutor :=
  { nodeExecutors := fun t =>
      if t = NodeWebhook then some WebhookExecutor.Execute
      else if t = NodeTimer then some TimerExecutor.Execute
      else if t = NodeHTTP then some HTTPExecutor.Execute
      else if t = NodeEmail then some EmailExecutor.Execute
      else if t = NodeCondition then some ConditionExecutor.Execute
      else if t = NodeTransform then some TransformExecutor.Execute
      else none }

/-- Go `WorkflowExecutor.buildExecutionGraph`: the source returns
`workflow.Nodes` unchanged (the comment there admits proper DAG sorting is
unimplemented). -/
def WorkflowExecutor.buildExecutionGraph (_we : WorkflowExecutor)
    (workflow : Workflow) : List Node :=
  workflow.nodes

/-- Go: `fmt.Sprintf("no executor for node type: %s", node.Type)`. -/
def noExecutorMsg (t : NodeType) : String :=
  "no executor for node type: " ++ t

/-- Go: `fmt.Sprintf("node %s error: %v", node.ID, err)`. -/
def nodeErrorMsg (id e : String) : String :=
  "node " ++ id ++ " error: " ++ e

/-- The `for _, node := range graph` loop body of
`WorkflowExecutor.Execute`, threading `result.Results` and
`result.Errors`.  Note the source invokes every executor with input `nil`
(`executor.Execute(&node, nil)`), here `GoValue.gNull`. -/
def runNodes (ex : NodeType → Option NodeExecutor) :
    List Node → List (String × GoValue) → List String →
    List (String × GoValue) × List String
  | [], results, errors => (results, errors)
  | node :: rest, results, errors =>
    match ex node.nodeType with
    | none =>
        runNodes ex rest results (errors ++ [noExecutorMsg node.nodeType])
    | some f =>
        match f node GoValue.gNull with
        | Except.error e =>
            runNodes ex rest results (errors ++ [nodeErrorMsg node.id e])
        | Except.ok output =>
            runNodes ex rest (assocSet results node.id output) errors

/-- The `ExecutionResult` literal at the top of
`WorkflowExecutor.Execute` (status starts as `"running"`; Go's zero
`time.Time` for the not-yet-set end timestamp is modelled as `0`). -/
def initResult (wfId : String) (startTime : Nat) : ExecutionResult :=
  { workflowID := wfId, status := "running", startTime := startTime,
    endTime := 0, results := [], errors := [] }

/-- Go `WorkflowExecutor.Execute`.  Returns the post-state of the
`*Workflow` argument (the body contains no assignment to it) together with
the Go pair `(*ExecutionResult, error)`. -/
def WorkflowExecutor.Execute (we : WorkflowExecutor)
    (startTime endTime : Nat) (workflow : Workflow) :
    Workflow × (Option ExecutionResult × Option String) :=
  let result0 := initResult workflow.id startTime
  let graph := WorkflowExecutor.buildExecutionGraph we workflow
  let p := runNodes we.nodeExecutors graph result0.results result0.errors
  let result1 : ExecutionResult :=
    { result0 with
      results := p.1, errors := p.2, endTime := endTime,
      status := if p.2.length > 0 then "failed" else "completed" }
  (workflow, (some result1, none))

/-- Go struct `WorkflowEngine` (the `sync.RWMutex` guards the store; the
engine core itself is sequential). -/
structure WorkflowEngine where
  workflows : List (String × Workflow)
  executor : WorkflowExecutor

/-- Go `WorkflowEngine.GetWorkflow`. -/
def WorkflowEngine.GetWorkflow (we : WorkflowEngine) (id : String) :
    Except String Workflow :=
  match assocLookup we.workflows id with
  | some w => Except.ok w
  | none => Except.error "workflow not found"

/-- Go `WorkflowEngine.ExecuteWorkflow`.  Returns the post-state of the
engine (the executed workflow's post-state is written back to the store,
making any mutation through the shared pointer observable) together with
the Go pair `(*ExecutionResult, error)`. -/
def WorkflowEngine.ExecuteWorkflow (we : WorkflowEngine)
    (startTime endTime : Nat) (id : String) :
    WorkflowEngine × (Option ExecutionResult × Option String) :=
  match WorkflowEngine.GetWorkflow we id with
  | Except.error e => (we, (none, some e))
  | Except.ok wf =>
      let q := WorkflowExecutor.Execute we.executor startTime endTime wf
      ({ we with workflows := assocSet we.workflows id q.1 }, q.2)

/-- Per-node outcome of the execution loop: either the single error string
the loop appends for this node, or the output it records under the node's
identifier.  Derived characterisation of `runNodes`, not a source
function. -/
def nodeOutcome (ex : NodeType → Option NodeExecutor) (node : Node) :
    Except String GoValue :=
  match ex node.nodeType with
  | none => Except.error (noExecutorMsg node.nodeType)
  | some f =>
      match f node GoValue.gNull with
      | Except.error e => Except.error (nodeErrorMsg node.id e)
      | Except.ok output => Except.ok output

/-- The update a node contributes to `result.Results`: its output under
its identifier on success, nothing on a skip or failure. -/
def applyOutcome (ex : NodeType → Option NodeExecutor)
    (r : List (String × GoValue)) (n : Node) : List (String × GoValue) :=
  match nodeOutcome ex n with
  | Except.ok v => assocSet r n.id v
  | Except.error _ => r

/-- The single error string a node contributes to `result.Errors`, when
it contributes one. -/
def errOf (ex : NodeType → Option NodeExecutor) (n : Node) :
    Option String :=
  match nodeOutcome ex n with
  | Except.error m => some m
  | Except.ok _ => none

/-- The six node types registered by `NewWorkflowExecutor`. -/
def registeredTypes : List NodeType :=
  [NodeWebhook, NodeTimer, NodeHTTP, NodeEmail, NodeCondition, NodeTransform]

/-- Position of an identifier in an ordering (length of the list when
absent). -/
def idIndex : List String → String → Nat
  | [], _ => 0
  | x :: rest, k => if x = k then 0 else idIndex rest k + 1

/-- `order` places every connection's source strictly before its
destination. -/
def respectsEdges (order : List String) (conns : List Connection) : Bool :=
  conns.all (fun c => idIndex order c.fromID < idIndex order c.toID)

/-- All ways to insert an element into a list. -/
def insertsOf (x : String) : List String → List (List String)
  | [] => [[x]]
  | y :: ys => (x :: y :: ys) :: (insertsOf x ys).map (fun l => y :: l)

/-- All permutations of a list (insertion-based, structurally
recursive). -/
def permsOf : List String → List (List String)
  | [] => [[]]
  | x :: xs => (permsOf xs).flatMap (insertsOf x)

/-- A workflow graph is acyclic iff some permutation of its node
identifiers is a topological order of its connections. -/
def hasTopoOrder (wf : Workflow) : Bool :=
  (permsOf (wf.nodes.map Node.id)).any
    (fun order => respectsEdges order wf.connections)

/-- `a` occurs strictly before `b` in the plan. -/
def precedesInPlan (plan : List Node) (a b : String) : Prop :=
  idIndex (plan.map Node.id) a < idIndex (plan.map Node.id) b

instance (plan : List Node) (a b : String) :
    Decidable (precedesInPlan plan a b) := by
  unfold precedesInPlan; infer_instance

/-! Concrete test fixtures. -/

/-- A webhook node named `A` (the §8 example properties). -/
def nodeA : Node :=
  { id := "A", nodeType := NodeWebhook, name := "A", x := 0, y := 0,
    properties := [("url", GoValue.gPrim (GoPrim.pStr "/hook")),
                   ("method", GoValue.gPrim (GoPrim.pStr "POST"))] }

/-- A webhook node named `B`. -/
def nodeB : Node :=
  { id := "B", nodeType := NodeWebhook, name := "B", x := 1, y := 0,
    properties := [("url", GoValue.gPrim (GoPrim.pStr "/hook2")),
                   ("method", GoValue.gPrim (GoPrim.pStr "GET"))] }

/-- The edge `A → B`. -/
def connAB : Connection := { id := "c1", fromID := "A", toID := "B" }

/-- The edge `B → A`. -/
def connBA : Connection := { id := "c2", fromID := "B", toID := "A" }

/-- Acyclic workflow whose node collection is stored in the order
`[B, A]` while its only dependency edge is `A → B`. -/
def wfBA : Workflow :=
  { id := "wf1", name := "w", description := "", nodes := [nodeB, nodeA],
    connections := [connAB], createdAt := 0, updatedAt := 0,
    status := "inactive" }

/-- Cyclic workflow: `A → B` and `B → A`. -/
def wfCyc : Workflow :=
  { id := "wf2", name := "w", description := "", nodes := [nodeA, nodeB],
    connections := [connAB, connBA], createdAt := 0, updatedAt := 0,
    status := "inactive" }

/-- Connection-free workflow storing its nodes as `[A, B]`. -/
def wfFreeAB : Workflow :=
  { id := "wf3", name := "w", description := "", nodes := [nodeA, nodeB],
    connections := [], createdAt := 0, updatedAt := 0,
    status := "inactive" }

/-- The same workflow as `wfFreeAB` except that the node collection was
inserted in the opposite order. -/
def wfFreeBA : Workflow :=
  { id := "wf3", name := "w", description := "", nodes := [nodeB, nodeA],
    connections := [], createdAt := 0, updatedAt := 0,
    status := "inactive" }

/-- An executor abiding by the §6 contract that returns its resolved
input unchanged, making the input the coordinator supplies observable. -/
def echoExecutor : NodeExecutor := fun _node input => Except.ok input

/-- An executor that always fails, to exercise the executor-error branch
of the coordinator loop. -/
def boomExecutor : NodeExecutor := fun _node _input => Except.error "boom"

/-- The standard registry extended with the two test executors above. -/
def testRegistry : WorkflowExecutor :=
  { nodeExecutors := fun t =>
      if t = "echo" then some echoExecutor
      else if t = "boom" then some boomExecutor
      else NewWorkflowExecutor.nodeExecutors t }

/-- A node of the observing `echo` type, downstream of `A`. -/
def nodeEcho : Node :=
  { id := "B", nodeType := "echo", name := "echo", x := 1, y := 0,
    properties := [] }

/-- A node whose type has no registered executor in the standard
registry (`database` is a declared `NodeType` constant with no entry in
`NewWorkflowExecutor`). -/
def nodeDB : Node :=
  { id := "D", nodeType := NodeDatabase, name := "db", x := 2, y := 0,
    properties := [] }

/-- A node of the always-failing `boom` type. -/
def nodeBoom : Node :=
  { id := "K", nodeType := "boom", name := "boom", x := 3, y := 0,
    properties := [] }

/-- Two-node chain `A → B` where `B` echoes the input it receives. -/
def wfChain : Workflow :=
  { id := "wf4", name := "w", description := "", nodes := [nodeA, nodeEcho],
    connections := [connAB], createdAt := 0, updatedAt := 0,
    status := "inactive" }

/-- Single-node workflow of the §8 webhook example. -/
def wfHook : Workflow :=
  { id := "wf5", name := "w", description := "", nodes := [nodeA],
    connections := [], createdAt := 0, updatedAt := 0,
    status := "inactive" }

/-- An engine whose store holds exactly `wfHook` under its identifier. -/
def engOne : WorkflowEngine :=
  { workflows := [("wf5", wfHook)], executor := NewWorkflowExecutor }

/-- An engine with an empty store. -/
def engEmpty : WorkflowEngine :=
  { workflows := [], executor := NewWorkflowExecutor }

/-! Helper lemmas about association lists and the execution loop. -/

theorem assocLookup_assocSet_self {α : Type} :
    ∀ (m : List (String × α)) (k : String) (v : α),
    assocLookup (assocSet m k v) k = some v := by
  intro m
  induction m with
  | nil => intro k v; simp [assocSet, assocLookup]
  | cons p rest ih =>
    intro k v
    by_cases h : p.1 = k
    · simp [assocSet, assocLookup, h]
    · simp [assocSet, assocLookup, h, ih]

theorem assocLookup_assocSet_ne {α : Type} :
    ∀ (m : List (String × α)) (k k' : String) (v : α), k' ≠ k →
    assocLookup (assocSet m k' v) k = assocLookup m k := by
  intro m
  induction m with
  | nil => intro k k' v h; simp [assocSet, assocLookup, h]
  | cons p rest ih =>
    intro k k' v h
    by_cases h1 : p.1 = k'
    · simp [assocSet, assocLookup, h1, h]
    · by_cases h2 : p.1 = k
      · simp [assocSet, assocLookup, h1, h2, Ne.symm h]
      · simp [assocSet, assocLookup, h1, h2, ih _ _ _ h]

theorem assocSet_length_of_none {α : Type} :
    ∀ (m : List (String × α)) (k : String) (v : α),
    assocLookup m k = none → (assocSet m k v).length = m.length + 1 := by
  intro m
  induction m with
  | nil => intro k v _; simp [assocSet]
  | cons p rest ih =>
    intro k v h
    by_cases h1 : p.1 = k
    · simp [assocLookup, h1] at h
    · simp [assocLookup, h1] at h
      simp [assocSet, h1, ih _ _ h]

theorem assocSet_self_eq {α : Type} :
    ∀ (m : List (String × α)) (k : String) (v : α),
    assocLookup m k = some v → assocSet m k v = m := by
  intro m
  induction m with
  | nil => intro k v h; simp [assocLookup] at h
  | cons p rest ih =>
    obtain ⟨k0, v0⟩ := p
    intro k v h
    by_cases h1 : k0 = k
    · simp [assocLookup, h1] at h
      simp [assocSet, h1, h]
    · simp [assocLookup, h1] at h
      simp [assocSet, h1, ih _ _ h]

theorem runNodes_spec (ex : NodeType → Option NodeExecutor) :
    ∀ (nodes : List Node) (r : List (String × GoValue)) (e : List String),
    runNodes ex nodes r e =
      (nodes.foldl (applyOutcome ex) r, e ++ nodes.filterMap (errOf ex)) := by
  intro nodes
  induction nodes with
  | nil => intro r e; simp [runNodes]
  | cons node rest ih =>
    intro r e
    cases h : ex node.nodeType with
    | none =>
        simp only [runNodes, h]
        rw [ih]
        simp [applyOutcome, errOf, nodeOutcome, h]
    | some f =>
        cases h2 : f node GoValue.gNull with
        | error msg =>
            simp only [runNodes, h, h2]
            rw [ih]
            simp [applyOutcome, errOf, nodeOutcome, h, h2]
        | ok v =>
            simp only [runNodes, h, h2]
            rw [ih]
            simp [applyOutcome, errOf, nodeOutcome, h, h2]

theorem runNodes_append (ex : NodeType → Option NodeExecutor)
    (xs ys : List Node) (r : List (String × GoValue)) (e : List String) :
    runNodes ex (xs ++ ys) r e =
      runNodes ex ys (runNodes ex xs r e).1 (runNodes ex xs r e).2 := by
  simp [runNodes_spec, List.foldl_append, List.filterMap_append,
    List.append_assoc]

theorem lookup_foldl_ne (ex : NodeType → Option NodeExecutor) :
    ∀ (nodes : List Node) (r : List (String × GoValue)) (k : String),
    (∀ n ∈ nodes, n.id ≠ k) →
    assocLookup (nodes.foldl (applyOutcome ex) r) k = assocLookup r k := by
  intro nodes
  induction nodes with
  | nil => intro r k _; rfl
  | cons node rest ih =>
    intro r k h
    have hne : node.id ≠ k := h node (List.mem_cons_self node rest)
    have hrest : ∀ n ∈ rest, n.id ≠ k :=
      fun n hn => h n (List.mem_cons_of_mem node hn)
    cases hv : nodeOutcome ex node with
    | error msg =>
        simp [applyOutcome, hv, ih _ _ hrest]
    | ok v =>
        simp [applyOutcome, hv, ih _ _ hrest,
          assocLookup_assocSet_ne _ _ _ _ hne]

theorem foldl_results_ok (ex : NodeType → Option NodeExecutor) :
    ∀ (nodes : List Node) (r : List (String × GoValue)),
    (∀ n ∈ nodes, ∃ v, nodeOutcome ex n = Except.ok v) →
    (nodes.map Node.id).Nodup →
    (∀ n ∈ nodes, assocLookup r n.id = none) →
    (nodes.foldl (applyOutcome ex) r).length = r.length + nodes.length
    ∧ ∀ n ∈ nodes,
        ∃ v, assocLookup (nodes.foldl (applyOutcome ex) r) n.id = some v := by
  intro nodes
  induction nodes with
  | nil => intro r _ _ _; simp
  | cons node rest ih =>
    intro r hok hnd hfresh
    obtain ⟨v, hv⟩ := hok node (List.mem_cons_self node rest)
    have hstep : applyOutcome ex r node = assocSet r node.id v := by
      simp [applyOutcome, hv]
    have hmap : ((node :: rest).map Node.id) = node.id :: rest.map Node.id := by
      simp
    rw [hmap, List.nodup_cons] at hnd
    have hnotmem : node.id ∉ rest.map Node.id := hnd.1
    have hrestne : ∀ n ∈ rest, n.id ≠ node.id := by
      intro n hn he
      exact hnotmem (he ▸ List.mem_map_of_mem Node.id hn)
    have hfresh0 : assocLookup r node.id = none :=
      hfresh node (List.mem_cons_self node rest)
    have hfresh' : ∀ n ∈ rest, assocLookup (assocSet r node.id v) n.id = none := by
      intro n hn
      rw [assocLookup_assocSet_ne r n.id node.id v (Ne.symm (hrestne n hn))]
      exact hfresh n (List.mem_cons_of_mem node hn)
    have hok' : ∀ n ∈ rest, ∃ w, nodeOutcome ex n = Except.ok w :=
      fun n hn => hok n (List.mem_cons_of_mem node hn)
    obtain ⟨ihlen, ihmem⟩ := ih (assocSet r node.id v) hok' hnd.2 hfresh'
    have hlen1 : (assocSet r node.id v).length = r.length + 1 :=
      assocSet_length_of_none _ _ _ hfresh0
    constructor
    · simp only [List.foldl_cons, hstep]
      rw [ihlen, hlen1]
      simp only [List.length_cons]
      omega
    · intro n hn
      rcases List.mem_cons.mp hn with h | h
      · subst h
        simp only [List.foldl_cons, hstep]
        rw [lookup_foldl_ne ex rest _ _ hrestne]
        exact ⟨v, assocLookup_assocSet_self _ _ _⟩
      · simp only [List.foldl_cons, hstep]
        exact ihmem n h

theorem registered_ok (n : Node) (input : GoValue)
    (h : n.nodeType ∈ registeredTypes) :
    ∃ f m, NewWorkflowExecutor.nodeExecutors n.nodeType = some f
      ∧ f n input = Except.ok (GoValue.gMap m) := by
  simp [registeredTypes, NodeWebhook, NodeTimer, NodeHTTP, NodeEmail,
    NodeCondition, NodeTransform] at h
  rcases h with h | h | h | h | h | h <;> rw [h] <;> exact ⟨_, _, rfl, rfl⟩

theorem nodeOutcome_ok (n : Node) (h : n.nodeType ∈ registeredTypes) :
    ∃ m, nodeOutcome NewWorkflowExecutor.nodeExecutors n
          = Except.ok (GoValue.gMap m) := by
  obtain ⟨f, m, hf, hfm⟩ := registered_ok n GoValue.gNull h
  exact ⟨m, by simp [nodeOutcome, hf, hfm]⟩

theorem Execute_eq (we : WorkflowExecutor) (s e : Nat) (wf : Workflow) :
    WorkflowExecutor.Execute we s e wf =
      (wf,
       (some { workflowID := wf.id,
               status := if (runNodes we.nodeExecutors wf.nodes [] []).2.length > 0
                         then "failed" else "completed",
               startTime := s, endTime := e,
               results := (runNodes we.nodeExecutors wf.nodes [] []).1,
               errors := (runNodes we.nodeExecutors wf.nodes [] []).2 },
        none)) := rfl

/-! Claim theorems. -/

/-- C1.  The spec requires that for every acyclic workflow graph the Graph
Builder's plan contain every node exactly once with every connection's
source before its destination.  The source's `buildExecutionGraph` returns
`workflow.Nodes` in storage order: on the acyclic workflow `wfBA`
(nodes stored `[B, A]`, single edge `A → B`) the produced plan places `B`
before `A`, violating the required dependency order. -/
theorem c1_builder_ignores_dependency_order :
    hasTopoOrder wfBA = true
  ∧ wfBA.connections = [connAB]
  ∧ WorkflowExecutor.buildExecutionGraph NewWorkflowExecutor wfBA
      = [nodeB, nodeA]
  ∧ ¬ precedesInPlan
      (WorkflowExecutor.buildExecutionGraph NewWorkflowExecutor wfBA)
      connAB.fromID connAB.toID := by
  decide

/-- C2.  The spec requires the Graph Builder to fail with `CycleDetected`
on a cyclic graph and produce no ordering.  The source's
`buildExecutionGraph` has return type `[]Node` — it cannot signal any
error — and on the cyclic workflow `wfCyc` it returns the full node list
as a plan. -/
theorem c2_builder_never_detects_cycles :
    hasTopoOrder wfCyc = false
  ∧ WorkflowExecutor.buildExecutionGraph NewWorkflowExecutor wfCyc
      = wfCyc.nodes
  ∧ (WorkflowExecutor.buildExecutionGraph NewWorkflowExecutor wfCyc).length
      = wfCyc.nodes.length := by
  decide

/-- C3.  The spec requires `Execute` on a structurally invalid workflow to
return a `Failed` result carrying the single structural error, with no
outputs and no node executor invoked.  On the cyclic workflow `wfCyc` the
source's `Execute` runs both webhook nodes and returns a `completed`
result with two outputs and an empty error list. -/
theorem c3_cyclic_workflow_executes_and_completes :
    hasTopoOrder wfCyc = false
  ∧ ∃ r, (WorkflowExecutor.Execute NewWorkflowExecutor 0 1 wfCyc).2
        = (some r, none)
      ∧ r.status = "completed"
      ∧ r.errors = []
      ∧ r.results.length = 2 := by
  exact ⟨by decide, _, rfl, rfl, rfl, rfl⟩

/-- C6.  The spec requires each executor to receive the mapping of its
direct predecessors' outputs.  The source invokes every executor as
`executor.Execute(&node, nil)`.  On the chain `A → B` where `B`'s executor
returns its input unchanged, `A` records a non-`nil` output, yet `B`
records `nil`: the coordinator passed `B`'s executor Go `nil`, not the
mapping containing `A`'s output. -/
theorem c6_executor_input_is_always_nil :
    testRegistry.nodeExecutors "echo" = some echoExecutor
  ∧ (∀ v, echoExecutor nodeEcho v = Except.ok v)
  ∧ ∃ r outA,
      (WorkflowExecutor.Execute testRegistry 0 1 wfChain).2 = (some r, none)
      ∧ assocLookup r.results "A" = some outA
      ∧ outA ≠ GoValue.gNull
      ∧ assocLookup r.results "B" = some GoValue.gNull := by
  refine ⟨rfl, fun v => rfl, _, _, rfl, rfl, by decide, rfl⟩

/-- C7.  The spec requires the plan to be insertion-order independent with
ties broken by ascending node identifier.  The source returns the node
collection in storage order: the structurally identical workflows
`wfFreeAB` and `wfFreeBA` (same nodes, same empty connection set,
different insertion order) get different plans, and neither tie amongst
the two simultaneously eligible nodes is broken by ascending identifier
in the second one. -/
theorem c7_plan_depends_on_insertion_order :
    wfFreeAB.nodes = [nodeA, nodeB]
  ∧ wfFreeBA.nodes = [nodeB, nodeA]
  ∧ wfFreeAB.connections = wfFreeBA.connections
  ∧ WorkflowExecutor.buildExecutionGraph NewWorkflowExecutor wfFreeAB
      ≠ WorkflowExecutor.buildExecutionGraph NewWorkflowExecutor wfFreeBA
  ∧ (WorkflowExecutor.buildExecutionGraph NewWorkflowExecutor wfFreeBA).map
      Node.id ≠ ["A", "B"] := by
  decide

theorem ExecuteWorkflow_eq (eng : WorkflowEngine) (s e : Nat) (id : String) :
    WorkflowEngine.ExecuteWorkflow eng s e id =
      match assocLookup eng.workflows id with
      | none => (eng, (none, some "workflow not found"))
      | some w =>
          ({ eng with workflows := assocSet eng.workflows id w },
           (WorkflowExecutor.Execute eng.executor s e w).2) := by
  unfold WorkflowEngine.ExecuteWorkflow WorkflowEngine.GetWorkflow
  cases h : assocLookup eng.workflows id <;> rfl

/-- C4.  Per-node failure isolation of the execution loop: at any plan
position, a node whose type is unregistered contributes exactly the one
error `"no executor for node type: <type>"`, a node whose executor fails
contributes exactly the one error `"node <id> error: <msg>"`, in both
cases the node adds no entry to the output mapping, and the loop
continues with all remaining nodes of the plan. -/
theorem c4_failure_isolation (ex : NodeType → Option NodeExecutor)
    (pre post : List Node) (node : Node)
    (r0 : List (String × GoValue)) (e0 : List String)
    (hfresh : ∀ m ∈ pre ++ post, m.id ≠ node.id)
    (hr0 : assocLookup r0 node.id = none) :
    (ex node.nodeType = none →
       runNodes ex (pre ++ node :: post) r0 e0
         = runNodes ex post (runNodes ex pre r0 e0).1
             ((runNodes ex pre r0 e0).2 ++ [noExecutorMsg node.nodeType])
       ∧ assocLookup (runNodes ex (pre ++ node :: post) r0 e0).1 node.id
           = none)
  ∧ (∀ f msg, ex node.nodeType = some f →
       f node GoValue.gNull = Except.error msg →
       runNodes ex (pre ++ node :: post) r0 e0
         = runNodes ex post (runNodes ex pre r0 e0).1
             ((runNodes ex pre r0 e0).2 ++ [nodeErrorMsg node.id msg])
       ∧ assocLookup (runNodes ex (pre ++ node :: post) r0 e0).1 node.id
           = none) := by
  have hpre : ∀ m ∈ pre, m.id ≠ node.id :=
    fun m hm => hfresh m (List.mem_append_left _ hm)
  have hpost : ∀ m ∈ post, m.id ≠ node.id :=
    fun m hm => hfresh m (List.mem_append_right _ hm)
  have hfold : ∀ v, nodeOutcome ex node = Except.error v →
      assocLookup (runNodes ex (pre ++ node :: post) r0 e0).1 node.id
        = none := by
    intro v hv
    rw [runNodes_spec]
    simp only [List.foldl_append, List.foldl_cons]
    rw [show applyOutcome ex (List.foldl (applyOutcome ex) r0 pre) node
          = List.foldl (applyOutcome ex) r0 pre from by simp [applyOutcome, hv]]
    rw [lookup_foldl_ne ex post _ _ hpost, lookup_foldl_ne ex pre _ _ hpre]
    exact hr0
  constructor
  · intro h
    refine ⟨?_, hfold (noExecutorMsg node.nodeType)
      (by simp [nodeOutcome, h])⟩
    rw [runNodes_append]
    simp only [runNodes, h]
  · intro f msg hf hmsg
    refine ⟨?_, hfold (nodeErrorMsg node.id msg)
      (by simp [nodeOutcome, hf, hmsg])⟩
    rw [runNodes_append]
    simp only [runNodes, hf, hmsg]

/-- Witness for C4: with the standard registry a `database` node (no
registered executor) yields exactly its one skip error and no output
entry; with the extended test registry a `boom` node whose executor fails
yields exactly its one error naming the node and no output entry. -/
theorem c4_failure_isolation_witness :
    runNodes NewWorkflowExecutor.nodeExecutors [nodeDB] [] []
      = ([], [noExecutorMsg NodeDatabase])
  ∧ assocLookup (runNodes NewWorkflowExecutor.nodeExecutors [nodeDB] [] []).1
      "D" = none
  ∧ runNodes testRegistry.nodeExecutors [nodeBoom] [] []
      = ([], [nodeErrorMsg "K" "boom"])
  ∧ assocLookup (runNodes testRegistry.nodeExecutors [nodeBoom] [] []).1
      "K" = none := by
  obtain ⟨hskip, _⟩ :=
    c4_failure_isolation NewWorkflowExecutor.nodeExecutors [] [] nodeDB [] []
      (by simp) rfl
  obtain ⟨h1, h2⟩ := hskip rfl
  obtain ⟨_, hboom⟩ :=
    c4_failure_isolation testRegistry.nodeExecutors [] [] nodeBoom [] []
      (by simp) rfl
  obtain ⟨g1, g2⟩ := hboom boomExecutor "boom" rfl rfl
  exact ⟨h1, h2, g1, g2⟩

/-- C5.  After the plan is exhausted the result's end timestamp is the
second clock reading and the terminal status is `completed` iff the
accumulated error list is empty and `failed` otherwise; the result is
created with status `running` and ends in exactly one of the two terminal
values. -/
theorem c5_terminal_status (we : WorkflowExecutor) (s e : Nat)
    (wf : Workflow) :
    ∃ r, (WorkflowExecutor.Execute we s e wf).2 = (some r, none)
      ∧ r.endTime = e
      ∧ (r.status = "completed" ↔ r.errors = [])
      ∧ (r.status = "failed" ↔ r.errors ≠ [])
      ∧ (r.status = "completed" ∨ r.status = "failed")
      ∧ (initResult wf.id s).status = "running" := by
  have key : ∀ l : List String,
      ((if l.length > 0 then "failed" else "completed") = "completed" ↔ l = [])
    ∧ ((if l.length > 0 then "failed" else "completed") = "failed" ↔ l ≠ [])
    ∧ ((if l.length > 0 then "failed" else "completed") = "completed"
        ∨ (if l.length > 0 then "failed" else "completed") = "failed") := by
    intro l
    cases l with
    | nil => simp
    | cons a t => simp
  rw [Execute_eq]
  obtain ⟨k1, k2, k3⟩ := key (runNodes we.nodeExecutors wf.nodes [] []).2
  exact ⟨_, rfl, rfl, k1, k2, k3, rfl⟩

/-- C8.  Executing never mutates the stored Workflow: the post-state of
the workflow passed to `Execute` is identical in every field, the engine
(and hence its store) is unchanged by `ExecuteWorkflow`, a second
execution is independent of whether a first one happened, and each
execution whose workflow exists returns a result computed afresh from the
stored workflow alone. -/
theorem c8_execution_frame (eng : WorkflowEngine) (s1 e1 s2 e2 : Nat)
    (id : String) (wf : Workflow) :
    (WorkflowExecutor.Execute eng.executor s1 e1 wf).1 = wf
  ∧ (WorkflowEngine.ExecuteWorkflow eng s1 e1 id).1 = eng
  ∧ WorkflowEngine.ExecuteWorkflow
      (WorkflowEngine.ExecuteWorkflow eng s1 e1 id).1 s2 e2 id
      = WorkflowEngine.ExecuteWorkflow eng s2 e2 id
  ∧ (∀ wf0, assocLookup eng.workflows id = some wf0 →
      (WorkflowEngine.ExecuteWorkflow eng s1 e1 id).2
        = (WorkflowExecutor.Execute eng.executor s1 e1 wf0).2) := by
  have hstate : (WorkflowEngine.ExecuteWorkflow eng s1 e1 id).1 = eng := by
    rw [ExecuteWorkflow_eq]
    cases h : assocLookup eng.workflows id with
    | none => rfl
    | some w =>
        show ({ eng with workflows := assocSet eng.workflows id w }) = eng
        rw [assocSet_self_eq _ _ _ h]
  refine ⟨rfl, hstate, by rw [hstate], ?_⟩
  intro wf0 h
  rw [ExecuteWorkflow_eq, h]

/-- Witness for C8 at the one-workflow engine `engOne`. -/
theorem c8_execution_frame_witness :
    (WorkflowEngine.ExecuteWorkflow engOne 0 1 "wf5").1 = engOne
  ∧ (WorkflowEngine.ExecuteWorkflow engOne 0 1 "wf5").2
      = (WorkflowExecutor.Execute engOne.executor 0 1 wfHook).2 := by
  obtain ⟨h1, h2, h3, h4⟩ := c8_execution_frame engOne 0 1 2 3 "wf5" wfHook
  exact ⟨h2, h4 wfHook rfl⟩

/-- C9.  Each of the six registered executors returns a non-`nil` output
map and a `nil` error on every node and input; consequently a workflow
whose nodes (with pairwise distinct identifiers) all carry one of the six
registered types executes to a `completed` result with an empty error
list and exactly one output entry per node. -/
theorem c9_registered_types_complete (wf : Workflow) (s e : Nat)
    (htypes : ∀ n ∈ wf.nodes, n.nodeType ∈ registeredTypes)
    (hids : (wf.nodes.map Node.id).Nodup) :
    (∀ (n : Node) (input : GoValue), n.nodeType ∈ registeredTypes →
       ∃ f m, NewWorkflowExecutor.nodeExecutors n.nodeType = some f
         ∧ f n input = Except.ok (GoValue.gMap m))
  ∧ ∃ r, (WorkflowExecutor.Execute NewWorkflowExecutor s e wf).2
        = (some r, none)
      ∧ r.status = "completed"
      ∧ r.errors = []
      ∧ r.results.length = wf.nodes.length
      ∧ ∀ n ∈ wf.nodes, ∃ v, assocLookup r.results n.id = some v := by
  have hok : ∀ n ∈ wf.nodes,
      ∃ v, nodeOutcome NewWorkflowExecutor.nodeExecutors n = Except.ok v := by
    intro n hn
    obtain ⟨m, hm⟩ := nodeOutcome_ok n (htypes n hn)
    exact ⟨_, hm⟩
  have herr :
      (runNodes NewWorkflowExecutor.nodeExecutors wf.nodes [] []).2 = [] := by
    rw [runNodes_spec]
    simp only [List.nil_append]
    rw [List.filterMap_eq_nil_iff]
    intro n hn
    obtain ⟨v, hv⟩ := hok n hn
    simp [errOf, hv]
  obtain ⟨hlen, hmem⟩ :=
    foldl_results_ok NewWorkflowExecutor.nodeExecutors wf.nodes [] hok hids
      (fun n _ => rfl)
  refine ⟨fun n input h => registered_ok n input h, ?_⟩
  rw [Execute_eq]
  refine ⟨_, rfl, ?_, ?_, ?_, ?_⟩
  · show (if (runNodes NewWorkflowExecutor.nodeExecutors wf.nodes [] []).2.length
            > 0 then "failed" else "completed") = "completed"
    rw [herr]
    rfl
  · exact herr
  · show (runNodes NewWorkflowExecutor.nodeExecutors wf.nodes [] []).1.length
        = wf.nodes.length
    rw [runNodes_spec]
    simpa using hlen
  · show ∀ n ∈ wf.nodes,
        ∃ v, assocLookup
          (runNodes NewWorkflowExecutor.nodeExecutors wf.nodes [] []).1 n.id
          = some v
    rw [runNodes_spec]
    exact hmem

/-- Witness for C9: the §8 single-webhook workflow completes with one
output entry and no errors. -/
theorem c9_registered_types_complete_witness :
    ∃ r, (WorkflowExecutor.Execute NewWorkflowExecutor 0 1 wfHook).2
        = (some r, none)
      ∧ r.status = "completed"
      ∧ r.errors = []
      ∧ r.results.length = wfHook.nodes.length
      ∧ ∀ n ∈ wfHook.nodes, ∃ v, assocLookup r.results n.id = some v :=
  (c9_registered_types_complete wfHook 0 1 (by decide) (by decide)).2

/-- C10.  `WorkflowExecutor.Execute` always returns a non-`nil` result
and a `nil` Go error; at the engine boundary `ExecuteWorkflow` errors iff
the identifier is absent from the store, in which case no execution is
attempted and no result is produced, and otherwise it returns exactly the
result of executing the stored workflow. -/
theorem c10_engine_boundary_errors (eng : WorkflowEngine) (s e : Nat)
    (id : String) :
    (∀ w, ∃ r, (WorkflowExecutor.Execute eng.executor s e w).2
        = (some r, none))
  ∧ ((WorkflowEngine.ExecuteWorkflow eng s e id).2.2 ≠ none
       ↔ assocLookup eng.workflows id = none)
  ∧ (assocLookup eng.workflows id = none →
       WorkflowEngine.ExecuteWorkflow eng s e id
         = (eng, (none, some "workflow not found")))
  ∧ (∀ w, assocLookup eng.workflows id = some w →
       (WorkflowEngine.ExecuteWorkflow eng s e id).2
         = (WorkflowExecutor.Execute eng.executor s e w).2) := by
  refine ⟨fun w => ⟨_, rfl⟩, ?_, ?_, ?_⟩
  · rw [ExecuteWorkflow_eq]
    cases h : assocLookup eng.workflows id with
    | none => simp
    | some w => simp [Execute_eq]
  · intro h
    rw [ExecuteWorkflow_eq, h]
  · intro w h
    rw [ExecuteWorkflow_eq, h]

/-- Witness for C10: the empty-store engine rejects an unknown identifier
without producing a result, and the one-workflow engine executes the
stored workflow. -/
theorem c10_engine_boundary_errors_witness :
    WorkflowEngine.ExecuteWorkflow engEmpty 0 1 "x"
      = (engEmpty, (none, some "workflow not found"))
  ∧ (WorkflowEngine.ExecuteWorkflow engOne 0 1 "wf5").2
      = (WorkflowExecutor.Execute engOne.executor 0 1 wfHook).2 := by
  obtain ⟨_, _, h3, h4⟩ := c10_engine_boundary_errors engEmpty 0 1 "x"
  obtain ⟨_, _, _, g4⟩ := c10_engine_boundary_errors engOne 0 1 "wf5"
  exact ⟨h3 rfl, g4 wfHook rfl⟩
